import Mathlib

/-!
# termshark `system.DumpcapExt` (src/system/dumpcapext.go)

A shallow embedding of `DumpcapExt`, the shim that runs dumpcap and falls back
to tshark, together with the properties its specification states.

Modelling conventions.

* A Go `string` is a Lean `String` (a sequence of Unicode characters); the
  argument slice `args` is a `List String`.  The pattern `fdre` and the digits
  accepted by `strconv.Atoi` are pure ASCII, so matching on characters and on
  UTF-8 bytes agree.
* A Go `error` is an `Option Error`, `none` being `nil`.
* A Go `int` is an `Int`; its width `strconv.IntSize` is the field `IntSize`
  of the operating-system interface.
* The operating system (environment, descriptor table, child processes) is a
  value `w : σ` threaded through the calls; every call the function makes is
  appended to a trace together with what it returned.
-/

namespace Termshark

/-- Go `error` values returned by the calls of `DumpcapExt`. -/
inductive Error where
  /-- `*strconv.NumError` wrapping `strconv.ErrSyntax`. -/
  | ErrSyntax (fn num : String)
  /-- `*strconv.NumError` wrapping `strconv.ErrRange`. -/
  | ErrRange (fn num : String)
  /-- Any error of the operating system or of package `os/exec`. -/
  | other (msg : String)
  deriving DecidableEq, Repr

/-- Value of an ASCII digit. -/
def digitVal (c : Char) : Nat := c.toNat - '0'.toNat

/-- Result of reading the digits of a number left to right. -/
inductive Scan where
  /-- Every character was a decimal digit; the value read. -/
  | value (n : Nat)
  /-- A character that is not a decimal digit was met (`strconv.ErrSyntax`). -/
  | invalid
  /-- The value read so far no longer fits `bitSize` bits (`strconv.ErrRange`). -/
  | overflow
  deriving DecidableEq, Repr

/-- The digit loop of Go `strconv.ParseUint(s, 10, bitSize)`, `n` being the value read
so far: it stops at the first character that is not `0`-`9`, or as soon as the value
exceeds `2^bitSize - 1`, whichever comes first. -/
def scanDigits (bitSize : Nat) : List Char → Nat → Scan
  | [], n => .value n
  | c :: cs, n =>
    if c.isDigit = false then .invalid
    else if 2 ^ bitSize - 1 < 10 * n + digitVal c then .overflow
    else scanDigits bitSize cs (10 * n + digitVal c)

/-- Go `strconv.Atoi(s)`, that is `ParseInt(s, 10, 0)` narrowed to `int`, for an `int`
of `intSize` bits (32 or 64 on Go's platforms): an optional sign, then one or more
ASCII digits; the value must lie in `[-2^(intSize-1), 2^(intSize-1) - 1]`. -/
def Atoi (intSize : Nat) (s : String) : Except Error Int :=
  let neg : Bool := s.data.head? = some '-'
  let body : List Char :=
    match s.data with
    | '+' :: r => r
    | '-' :: r => r
    | cs => cs
  if body = [] then .error (.ErrSyntax "Atoi" s)
  else
    match scanDigits intSize body 0 with
    | .invalid => .error (.ErrSyntax "Atoi" s)
    | .overflow => .error (.ErrRange "Atoi" s)
    | .value un =>
      let cutoff : Nat := 2 ^ (intSize - 1)
      if neg = false ∧ cutoff ≤ un then .error (.ErrRange "Atoi" s)
      else if neg = true ∧ cutoff < un then .error (.ErrRange "Atoi" s)
      else .ok (if neg then -(un : Int) else (un : Int))

/-- The literal part of the pattern `fdre`. -/
def devfd : List Char := "/dev/fd/".data

/-- What is left of `cs` after the literal `lit`, when `cs` starts with it. -/
def afterLiteral : List Char → List Char → Option (List Char)
  | [], cs => some cs
  | _ :: _, [] => none
  | p :: ps, c :: cs => if p = c then afterLiteral ps cs else none

/-- Match of `/dev/fd/([[:digit:]]+)` starting at the first character of `cs`:
the whole match and capture group 1 (the greedy, longest run of digits). -/
def fdreAt (cs : List Char) : Option (List Char × List Char) :=
  match afterLiteral devfd cs with
  | none => none
  | some r =>
    let ds := r.takeWhile Char.isDigit
    if ds = [] then none else some (devfd ++ ds, ds)

/-- Leftmost match of the (unanchored) pattern `fdre` in `cs`. -/
def fdreFind : List Char → Option (List Char × List Char)
  | [] => none
  | c :: cs =>
    match fdreAt (c :: cs) with
    | some m => some m
    | none => fdreFind cs

/-- Go `fdre.FindStringSubmatch(s)` for
`fdre = regexp.MustCompile("/dev/fd/([[:digit:]]+)")`: `nil` (the empty list) when
nothing matches, otherwise the leftmost match followed by its capture group. -/
def fdre.FindStringSubmatch (s : String) : List String :=
  match fdreFind s.data with
  | none => []
  | some (m, g) => [String.mk m, String.mk g]

/-- One call made by `DumpcapExt`, with its arguments and what it returned. -/
inductive Event where
  /-- `os.Getenv(key)` returned `val` (the empty string when unset). -/
  | Getenv (key val : String)
  /-- `Dup2(fd, fd2)` returned `res`. -/
  | Dup2 (fd fd2 : Int) (res : Option Error)
  /-- `log.Warnf` with this format string. -/
  | Warnf (format : String)
  /-- `log.Infof` with this format string. -/
  | Infof (format : String)
  /-- `exec.Command(name, args...)` was run once; `Run()` returned `res`. -/
  | Run (name : String) (args : List String) (res : Option Error)
  /-- `exec.LookPath(file)` returned `(path, err)`. -/
  | LookPath (file path : String) (err : Option Error)
  /-- `syscall.Exec(argv0, argv, envv)`; `res = none` means the image was replaced. -/
  | Exec (argv0 : String) (argv envv : List String) (res : Option Error)
  deriving DecidableEq, Repr

/-- The operating-system interface `DumpcapExt` calls, over a world state `σ`.
`Dup2` is the function of package `system` defined in another file of the
repository; it is taken as given, like the system calls. -/
structure OS (σ : Type) where
  /-- `strconv.IntSize`, the width of `int`. -/
  IntSize : Nat
  /-- `os.Getenv`: the value of a variable, empty when unset. -/
  Getenv : String → σ → String
  /-- `os.Environ`. -/
  Environ : σ → List String
  /-- `system.Dup2(fd, fd2)`. -/
  Dup2 : Int → Int → σ → Option Error × σ
  /-- `exec.Command(name, args...)` with the standard streams inherited, then `Run()`:
  a start error and a non-zero exit are both a non-nil error. -/
  Run : String → List String → σ → Option Error × σ
  /-- `exec.LookPath(file)`. -/
  LookPath : String → σ → (String × Option Error) × σ
  /-- `syscall.Exec(argv0, argv, envv)`: `none` is success, after which the calling
  program no longer runs. -/
  Exec : String → List String → List String → σ → Option Error × σ

/-- How a call of `DumpcapExt` ends. -/
inductive Outcome where
  /-- The function returned this `error`. -/
  | returned (err : Option Error)
  /-- `syscall.Exec` succeeded: the process image was replaced, nothing is returned. -/
  | replaced
  /-- A run-time panic (index out of range). -/
  | panicked
  deriving DecidableEq, Repr

/-- State after lines 42-61 of `DumpcapExt`. -/
structure Rewrite (σ : Type) where
  /-- The slice `args` (the caller's backing array, updated in place). -/
  args : List String
  /-- Calls made so far. -/
  trace : List Event
  /-- State of the operating system. -/
  world : σ
  /-- An index expression was out of range. -/
  panicked : Bool

/-- Lines 42-61 of `DumpcapExt`: the `/dev/fd/X` rewrite of `args[1]`.  The `err`
assigned here is the one declared by `fd, err := strconv.Atoi(...)` in the inner
block; the function's own `err` is untouched. -/
def rewriteArgs {σ : Type} (os : OS σ) (args : List String) (w : σ) : Rewrite σ :=
  if 2 ≤ args.length then
    let toggle := os.Getenv "TERMSHARK_REPLACE_DEVFD" w
    let t0 := [Event.Getenv "TERMSHARK_REPLACE_DEVFD" toggle]
    if toggle ≠ "0" then
      match args[1]? with
      | none => ⟨args, t0, w, true⟩
      | some a1 =>
        let fdnum := fdre.FindStringSubmatch a1
        if fdnum.length = 2 then
          match fdnum[1]? with
          | none => ⟨args, t0, w, true⟩
          | some digits =>
            match Atoi os.IntSize digits with
            | .error _ =>
              ⟨args, t0 ++ [.Warnf "Unexpected error parsing %s: %v"], w, false⟩
            | .ok fd =>
              match os.Dup2 fd 0 w with
              | (some e, w1) =>
                ⟨args, t0 ++ [.Dup2 fd 0 (some e),
                    .Warnf "Problem duplicating fd %d to 0: %v",
                    .Warnf "Will not try to replace argument %s to tshark"], w1, false⟩
              | (none, w1) =>
                ⟨args.set 1 "-", t0 ++ [.Dup2 fd 0 none,
                    .Infof "Replacing argument %s with - for tshark compatibility"], w1, false⟩
        else ⟨args, t0, w, false⟩
    else ⟨args, t0, w, false⟩
  else ⟨args, [], w, false⟩

/-- Result of a call of `DumpcapExt`. -/
structure Result (σ : Type) where
  /-- How the call ended. -/
  out : Outcome
  /-- The slice `args` at the end. -/
  args : List String
  /-- Every call made, in order. -/
  trace : List Event
  /-- State of the operating system at the end. -/
  world : σ

/-- Go `DumpcapExt(dumpcapBin, tsharkBin, args...)`. -/
def DumpcapExt {σ : Type} (os : OS σ) (dumpcapBin tsharkBin : String)
    (args : List String) (w : σ) : Result σ :=
  let rw := rewriteArgs os args w
  if rw.panicked then ⟨.panicked, rw.args, rw.trace, rw.world⟩
  else
    let args := rw.args
    let t1 := rw.trace ++ [.Infof "Starting dumpcap command %v"]
    match os.Run dumpcapBin args rw.world with
    | (none, w1) => ⟨.returned none, args, t1 ++ [.Run dumpcapBin args none], w1⟩
    | (some e, w1) =>
      let t2 := t1 ++ [.Run dumpcapBin args (some e)]
      match os.LookPath tsharkBin w1 with
      | ((tshark, some err), w2) =>
        ⟨.returned (some err), args, t2 ++ [.LookPath tsharkBin tshark (some err)], w2⟩
      | ((tshark, none), w2) =>
        let t3 := t2 ++ [.LookPath tsharkBin tshark none,
                         .Infof "Retrying with dumpcap command %v"]
        match os.Exec tshark (tshark :: args) (os.Environ w2) w2 with
        | (some err, w3) =>
          ⟨.returned (some err), args,
            t3 ++ [.Exec tshark (tshark :: args) (os.Environ w2) (some err)], w3⟩
        | (none, w3) =>
          ⟨.replaced, args, t3 ++ [.Exec tshark (tshark :: args) (os.Environ w2) none], w3⟩

/-- A scripted operating system over the trivial world: fixed answers. -/
def scripted (intSize : Nat) (toggle : String) (dup run : Option Error)
    (look : String × Option Error) (ex : Option Error) : OS Unit where
  IntSize := intSize
  Getenv := fun _ _ => toggle
  Environ := fun _ => ["HOME=/root"]
  Dup2 := fun _ _ _ => (dup, ())
  Run := fun _ _ _ => (run, ())
  LookPath := fun _ _ => (look, ())
  Exec := fun _ _ _ _ => (ex, ())

/-- The event is a `Dup2` call. -/
def Event.isDup2 : Event → Bool
  | .Dup2 _ _ _ => true
  | _ => false

/-- The event is a run of the fast-path tool. -/
def Event.isRun : Event → Bool
  | .Run _ _ _ => true
  | _ => false

/-- The event is an `exec.LookPath` call. -/
def Event.isLookPath : Event → Bool
  | .LookPath _ _ _ => true
  | _ => false

/-- The event is a `syscall.Exec` call. -/
def Event.isExec : Event → Bool
  | .Exec _ _ _ _ => true
  | _ => false

/-! ## The outcomes of the two stages -/

/-- The ways lines 42-61 can end, with the state each leaves. -/
inductive RewriteCase {σ : Type} (os : OS σ) (args : List String) (w : σ) :
    Rewrite σ → Prop where
  | short (h : args.length < 2) : RewriteCase os args w ⟨args, [], w, false⟩
  | disabled (h : 2 ≤ args.length) (ht : os.Getenv "TERMSHARK_REPLACE_DEVFD" w = "0") :
      RewriteCase os args w ⟨args, [.Getenv "TERMSHARK_REPLACE_DEVFD" "0"], w, false⟩
  | noMatch (a1 : String) (h1 : args[1]? = some a1)
      (ht : os.Getenv "TERMSHARK_REPLACE_DEVFD" w ≠ "0")
      (hm : (fdre.FindStringSubmatch a1).length ≠ 2) :
      RewriteCase os args w
        ⟨args, [.Getenv "TERMSHARK_REPLACE_DEVFD" (os.Getenv "TERMSHARK_REPLACE_DEVFD" w)],
          w, false⟩
  | parseError (a1 m ds : String) (e : Error) (h1 : args[1]? = some a1)
      (ht : os.Getenv "TERMSHARK_REPLACE_DEVFD" w ≠ "0")
      (hm : fdre.FindStringSubmatch a1 = [m, ds]) (hp : Atoi os.IntSize ds = .error e) :
      RewriteCase os args w
        ⟨args, [.Getenv "TERMSHARK_REPLACE_DEVFD" (os.Getenv "TERMSHARK_REPLACE_DEVFD" w),
          .Warnf "Unexpected error parsing %s: %v"], w, false⟩
  | dupError (a1 m ds : String) (fd : Int) (e : Error) (w1 : σ) (h1 : args[1]? = some a1)
      (ht : os.Getenv "TERMSHARK_REPLACE_DEVFD" w ≠ "0")
      (hm : fdre.FindStringSubmatch a1 = [m, ds]) (hp : Atoi os.IntSize ds = .ok fd)
      (hd : os.Dup2 fd 0 w = (some e, w1)) :
      RewriteCase os args w
        ⟨args, [.Getenv "TERMSHARK_REPLACE_DEVFD" (os.Getenv "TERMSHARK_REPLACE_DEVFD" w),
          .Dup2 fd 0 (some e), .Warnf "Problem duplicating fd %d to 0: %v",
          .Warnf "Will not try to replace argument %s to tshark"], w1, false⟩
  | replaced (a1 m ds : String) (fd : Int) (w1 : σ) (h1 : args[1]? = some a1)
      (ht : os.Getenv "TERMSHARK_REPLACE_DEVFD" w ≠ "0")
      (hm : fdre.FindStringSubmatch a1 = [m, ds]) (hp : Atoi os.IntSize ds = .ok fd)
      (hd : os.Dup2 fd 0 w = (none, w1)) :
      RewriteCase os args w
        ⟨args.set 1 "-", [.Getenv "TERMSHARK_REPLACE_DEVFD" (os.Getenv "TERMSHARK_REPLACE_DEVFD" w),
          .Dup2 fd 0 none,
          .Infof "Replacing argument %s with - for tshark compatibility"], w1, false⟩

/-- The ways lines 63-77 can end from the state `rw` left by the rewrite step. -/
inductive CallCase {σ : Type} (os : OS σ) (dumpcapBin tsharkBin : String) (rw : Rewrite σ) :
    Result σ → Prop where
  | fastPath (w1 : σ) (hr : os.Run dumpcapBin rw.args rw.world = (none, w1)) :
      CallCase os dumpcapBin tsharkBin rw
        ⟨.returned none, rw.args,
          rw.trace ++ [.Infof "Starting dumpcap command %v", .Run dumpcapBin rw.args none], w1⟩
  | lookupFailed (e err : Error) (path : String) (w1 w2 : σ)
      (hr : os.Run dumpcapBin rw.args rw.world = (some e, w1))
      (hl : os.LookPath tsharkBin w1 = ((path, some err), w2)) :
      CallCase os dumpcapBin tsharkBin rw
        ⟨.returned (some err), rw.args,
          rw.trace ++ [.Infof "Starting dumpcap command %v", .Run dumpcapBin rw.args (some e),
            .LookPath tsharkBin path (some err)], w2⟩
  | execFailed (e err : Error) (path : String) (w1 w2 w3 : σ)
      (hr : os.Run dumpcapBin rw.args rw.world = (some e, w1))
      (hl : os.LookPath tsharkBin w1 = ((path, none), w2))
      (hx : os.Exec path (path :: rw.args) (os.Environ w2) w2 = (some err, w3)) :
      CallCase os dumpcapBin tsharkBin rw
        ⟨.returned (some err), rw.args,
          rw.trace ++ [.Infof "Starting dumpcap command %v", .Run dumpcapBin rw.args (some e),
            .LookPath tsharkBin path none, .Infof "Retrying with dumpcap command %v",
            .Exec path (path :: rw.args) (os.Environ w2) (some err)], w3⟩
  | execed (e : Error) (path : String) (w1 w2 w3 : σ)
      (hr : os.Run dumpcapBin rw.args rw.world = (some e, w1))
      (hl : os.LookPath tsharkBin w1 = ((path, none), w2))
      (hx : os.Exec path (path :: rw.args) (os.Environ w2) w2 = (none, w3)) :
      CallCase os dumpcapBin tsharkBin rw
        ⟨.replaced, rw.args,
          rw.trace ++ [.Infof "Starting dumpcap command %v", .Run dumpcapBin rw.args (some e),
            .LookPath tsharkBin path none, .Infof "Retrying with dumpcap command %v",
            .Exec path (path :: rw.args) (os.Environ w2) none], w3⟩

/-! ## Case analysis of the two stages -/

/-- `FindStringSubmatch` returns `nil` or exactly the match and its one group. -/
theorem FindStringSubmatch_shape (s : String) :
    fdre.FindStringSubmatch s = [] ∨ ∃ m ds, fdre.FindStringSubmatch s = [m, ds] := by
  unfold fdre.FindStringSubmatch
  split
  · exact Or.inl rfl
  · exact Or.inr ⟨_, _, rfl⟩

/-- The rewrite step always ends in one of the states of `RewriteCase`. -/
theorem rewriteArgs_case {σ : Type} (os : OS σ) (args : List String) (w : σ) :
    RewriteCase os args w (rewriteArgs os args w) := by
  unfold rewriteArgs
  by_cases hlen : 2 ≤ args.length
  · have h1 : args[1]? = some args[1] := List.getElem?_eq_getElem (by omega)
    by_cases ht : os.Getenv "TERMSHARK_REPLACE_DEVFD" w = "0"
    · simp only [hlen, ht, if_true, ne_eq, not_true_eq_false, if_false]
      exact .disabled hlen ht
    · simp only [hlen, if_true, ne_eq, ht, not_false_eq_true, h1]
      rcases FindStringSubmatch_shape args[1] with h0 | ⟨m, ds, hm⟩
      · simp only [h0, List.length_nil, OfNat.zero_ne_ofNat, if_false]
        exact .noMatch _ h1 ht (by simp [h0])
      · simp only [hm, List.length_cons, List.length_nil, zero_add, Nat.reduceAdd, if_true,
          List.getElem?_cons_succ, List.getElem?_cons_zero]
        cases hp : Atoi os.IntSize ds with
        | error e => exact .parseError _ m ds e h1 ht hm hp
        | ok fd =>
          simp only []
          rcases hd : os.Dup2 fd 0 w with ⟨_ | e, w1⟩
          · exact .replaced _ m ds fd w1 h1 ht hm hp hd
          · exact .dupError _ m ds fd e w1 h1 ht hm hp hd
  · simp only [hlen, if_false]
    exact .short (by omega)

/-- Both index expressions of the rewrite step are in range. -/
theorem rewriteArgs_panicked {σ : Type} (os : OS σ) (args : List String) (w : σ) :
    (rewriteArgs os args w).panicked = false := by
  have h := rewriteArgs_case os args w
  generalize rewriteArgs os args w = rw at h
  cases h <;> rfl

/-- A call always ends in one of the states of `CallCase`. -/
theorem DumpcapExt_case {σ : Type} (os : OS σ) (dumpcapBin tsharkBin : String)
    (args : List String) (w : σ) :
    CallCase os dumpcapBin tsharkBin (rewriteArgs os args w)
      (DumpcapExt os dumpcapBin tsharkBin args w) := by
  unfold DumpcapExt
  simp only [rewriteArgs_panicked, Bool.false_eq_true, if_false]
  generalize rewriteArgs os args w = rw
  rcases hr : os.Run dumpcapBin rw.args rw.world with ⟨_ | e, w1⟩
  · simpa using .fastPath w1 hr
  · rcases hl : os.LookPath tsharkBin w1 with ⟨⟨path, _ | err⟩, w2⟩
    · rcases hx : os.Exec path (path :: rw.args) (os.Environ w2) w2 with ⟨_ | err, w3⟩
      · simpa [hl, hx] using .execed e path w1 w2 w3 hr hl hx
      · simpa [hl, hx] using .execFailed e err path w1 w2 w3 hr hl hx
    · simpa [hl] using .lookupFailed e err path w1 w2 hr hl

/-! ## The pattern on a well-formed descriptor path -/

/-- A list that starts with the literal loses exactly the literal. -/
theorem afterLiteral_append (lit cs : List Char) : afterLiteral lit (lit ++ cs) = some cs := by
  induction lit with
  | nil => cases cs <;> rfl
  | cons p ps ih => simp [afterLiteral, ih]

/-- The greedy group takes a whole run of digits. -/
theorem takeWhile_all (l : List Char) (h : ∀ c ∈ l, c.isDigit = true) :
    l.takeWhile Char.isDigit = l := by
  induction l with
  | nil => rfl
  | cons c cs ih =>
    have hc : c.isDigit = true := h c (List.mem_cons_self _ _)
    have hcs : ∀ d ∈ cs, d.isDigit = true := fun d hd => h d (List.mem_cons_of_mem _ hd)
    simp [List.takeWhile, hc, ih hcs]

/-- The pattern matches `/dev/fd/` followed by digits at its first character. -/
theorem fdreAt_devfd (l : List Char) (hne : l ≠ []) (h : ∀ c ∈ l, c.isDigit = true) :
    fdreAt (devfd ++ l) = some (devfd ++ l, l) := by
  simp [fdreAt, afterLiteral_append, takeWhile_all l h, hne]

/-- On `/dev/fd/` followed by digits the match is the whole string and the group is
the digits. -/
theorem FindStringSubmatch_devfd (digits : String) (hne : digits.data ≠ [])
    (h : ∀ c ∈ digits.data, c.isDigit = true) :
    fdre.FindStringSubmatch ("/dev/fd/" ++ digits) = ["/dev/fd/" ++ digits, digits] := by
  have hdata : ("/dev/fd/" ++ digits).data = devfd ++ digits.data := by
    simp [devfd, String.data_append]
  have hfind : fdreFind (devfd ++ digits.data) = some (devfd ++ digits.data, digits.data) := by
    have hat := fdreAt_devfd digits.data hne h
    have hcons : devfd ++ digits.data = '/' :: ("dev/fd/".data ++ digits.data) := rfl
    rw [hcons] at hat ⊢
    simp only [fdreFind, hat]
  unfold fdre.FindStringSubmatch
  rw [hdata, hfind]
  simp only [List.cons.injEq, and_true]
  rw [← hdata]

/-! ## The claims -/

/-- C1: when `args[1]` is `/dev/fd/` followed by one or more decimal digits that
`Atoi` parses to `N`, and `TERMSHARK_REPLACE_DEVFD` is not `"0"` (unset reads as the
empty string), `Dup2(N, 0)` is called; if it succeeds, the list handed to the
fast-path tool, and to `syscall.Exec` after the program path, has `"-"` as its
second element and is otherwise the input. -/
theorem C1_devfd_argument_rewritten {σ : Type} (os : OS σ) (dumpcapBin tsharkBin : String)
    (x digits : String) (rest : List String) (N : Int) (w : σ)
    (hne : digits.data ≠ []) (hdig : ∀ c ∈ digits.data, c.isDigit = true)
    (hN : Atoi os.IntSize digits = .ok N)
    (htoggle : os.Getenv "TERMSHARK_REPLACE_DEVFD" w ≠ "0") :
    let r := DumpcapExt os dumpcapBin tsharkBin (x :: ("/dev/fd/" ++ digits) :: rest) w
    r.trace.filter Event.isDup2 = [Event.Dup2 N 0 (os.Dup2 N 0 w).1] ∧
    ((os.Dup2 N 0 w).1 = none →
      r.args = x :: "-" :: rest ∧
      (∃ res, r.trace.filter Event.isRun = [Event.Run dumpcapBin (x :: "-" :: rest) res]) ∧
      (∀ argv0 argv envv res, Event.Exec argv0 argv envv res ∈ r.trace →
        argv = argv0 :: x :: "-" :: rest)) := by
  dsimp only
  have hm := FindStringSubmatch_devfd digits hne hdig
  have hc := DumpcapExt_case os dumpcapBin tsharkBin (x :: ("/dev/fd/" ++ digits) :: rest) w
  have hr := rewriteArgs_case os (x :: ("/dev/fd/" ++ digits) :: rest) w
  generalize DumpcapExt os dumpcapBin tsharkBin (x :: ("/dev/fd/" ++ digits) :: rest) w = r
    at hc ⊢
  generalize rewriteArgs os (x :: ("/dev/fd/" ++ digits) :: rest) w = rw at hr hc
  cases hr with
  | short h => simp only [List.length_cons] at h; omega
  | disabled h ht => exact absurd ht htoggle
  | noMatch a1 h1 ht hm1 =>
    simp only [List.getElem?_cons_succ, List.getElem?_cons_zero, Option.some.injEq] at h1
    subst h1
    simp [hm] at hm1
  | parseError a1 m ds e h1 ht hm1 hp =>
    simp only [List.getElem?_cons_succ, List.getElem?_cons_zero, Option.some.injEq] at h1
    subst h1
    simp only [hm, List.cons.injEq, and_true] at hm1
    obtain ⟨-, rfl⟩ := hm1
    simp [hN] at hp
  | dupError a1 m ds fd e w1 h1 ht hm1 hp hd =>
    simp only [List.getElem?_cons_succ, List.getElem?_cons_zero, Option.some.injEq] at h1
    subst h1
    simp only [hm, List.cons.injEq, and_true] at hm1
    obtain ⟨-, rfl⟩ := hm1
    simp only [hN, Except.ok.injEq] at hp
    subst hp
    cases hc <;> simp [List.filter, Event.isDup2, hd]
  | replaced a1 m ds fd w1 h1 ht hm1 hp hd =>
    simp only [List.getElem?_cons_succ, List.getElem?_cons_zero, Option.some.injEq] at h1
    subst h1
    simp only [hm, List.cons.injEq, and_true] at hm1
    obtain ⟨-, rfl⟩ := hm1
    simp only [hN, Except.ok.injEq] at hp
    subst hp
    cases hc <;> simp [List.filter, Event.isDup2, Event.isRun, hd] <;>
      (rintro _ _ _ _ rfl rfl - -; rfl)

/-- C1 at `["-i", "/dev/fd/7", "-w", "-"]` with the toggle unset: `Dup2(7, 0)` is
called and the list becomes `["-i", "-", "-w", "-"]`. -/
theorem C1_devfd_argument_rewritten_witness :
    (DumpcapExt (scripted 64 "" none none ("", none) none) "dumpcap" "tshark"
        ["-i", "/dev/fd/7", "-w", "-"] ()).trace.filter Event.isDup2 = [Event.Dup2 7 0 none] ∧
    (DumpcapExt (scripted 64 "" none none ("", none) none) "dumpcap" "tshark"
        ["-i", "/dev/fd/7", "-w", "-"] ()).args = ["-i", "-", "-w", "-"] :=
  have h := C1_devfd_argument_rewritten (scripted 64 "" none none ("", none) none)
    "dumpcap" "tshark" "-i" "7" ["-w", "-"] 7 () (by decide) (by decide) rfl (by decide)
  ⟨h.1, (h.2 rfl).1⟩

/-- C2, evaluated at `["-i", "/dev/fd/7x"]` with the toggle unset: the unanchored
pattern matches the leading `/dev/fd/7`, `Dup2(7, 0)` is called and the fast-path
tool is run on `["-i", "-"]`. -/
theorem C2_nondigit_suffix_is_rewritten :
    fdre.FindStringSubmatch "/dev/fd/7x" = ["/dev/fd/7", "7"] ∧
    (DumpcapExt (scripted 64 "" none none ("", none) none) "dumpcap" "tshark"
      ["-i", "/dev/fd/7x"] ()).trace =
      [.Getenv "TERMSHARK_REPLACE_DEVFD" "", .Dup2 7 0 none,
        .Infof "Replacing argument %s with - for tshark compatibility",
        .Infof "Starting dumpcap command %v", .Run "dumpcap" ["-i", "-"] none] := by
  decide

/-- C3: with fewer than two arguments, or with `TERMSHARK_REPLACE_DEVFD` set to `"0"`,
no `Dup2` call is made, the fast-path tool is run on the input list itself, the
slice is unchanged and no index expression is out of range. -/
theorem C3_no_rewrite_when_short_or_disabled {σ : Type} (os : OS σ)
    (dumpcapBin tsharkBin : String) (args : List String) (w : σ)
    (h : args.length < 2 ∨ os.Getenv "TERMSHARK_REPLACE_DEVFD" w = "0") :
    let r := DumpcapExt os dumpcapBin tsharkBin args w
    (∀ fd fd2 res, Event.Dup2 fd fd2 res ∉ r.trace) ∧
    (∃ res, r.trace.filter Event.isRun = [Event.Run dumpcapBin args res]) ∧
    r.args = args ∧
    r.out ≠ Outcome.panicked := by
  dsimp only
  have hc := DumpcapExt_case os dumpcapBin tsharkBin args w
  have hr := rewriteArgs_case os args w
  generalize DumpcapExt os dumpcapBin tsharkBin args w = r at hc ⊢
  generalize rewriteArgs os args w = rw at hr hc
  have hlen : ∀ a1, args[1]? = some a1 → 2 ≤ args.length := by
    intro a1 h1
    have := List.getElem?_eq_some.1 h1
    obtain ⟨hlt, -⟩ := this
    omega
  cases hr <;> cases hc <;>
    first
    | (simp [List.filter, Event.isRun]; done)
    | (exfalso
       rcases h with h | h
       · have := hlen _ ‹_›; omega
       · exact absurd h ‹_›)

/-- C3 at `["-i", "/dev/fd/7"]` with the toggle set to `"0"`. -/
theorem C3_no_rewrite_when_short_or_disabled_witness :
    (scripted 64 "0" none none ("", none) none).Getenv "TERMSHARK_REPLACE_DEVFD" () = "0" ∧
    (DumpcapExt (scripted 64 "0" none none ("", none) none) "dumpcap" "tshark"
      ["-i", "/dev/fd/7"] ()).args = ["-i", "/dev/fd/7"] :=
  ⟨rfl, (C3_no_rewrite_when_short_or_disabled (scripted 64 "0" none none ("", none) none)
    "dumpcap" "tshark" ["-i", "/dev/fd/7"] () (Or.inr rfl)).2.2.1⟩

/-- C4: `DumpcapExt` returns the non-nil error `e` exactly when the fast-path run
failed and then `LookPath` returned `e` or `syscall.Exec` returned `e`; when the
fast-path run succeeded it returns nil, whatever happened in the rewrite step; and
it never panics. -/
theorem C4_error_iff_fallback_failed {σ : Type} (os : OS σ) (dumpcapBin tsharkBin : String)
    (args : List String) (w : σ) :
    let r := DumpcapExt os dumpcapBin tsharkBin args w
    (∀ e : Error, r.out = Outcome.returned (some e) ↔
      (∃ name as e0, Event.Run name as (some e0) ∈ r.trace) ∧
      ((∃ file path, Event.LookPath file path (some e) ∈ r.trace) ∨
        (∃ argv0 argv envv, Event.Exec argv0 argv envv (some e) ∈ r.trace))) ∧
    ((∃ name as, Event.Run name as none ∈ r.trace) → r.out = Outcome.returned none) ∧
    r.out ≠ Outcome.panicked := by
  dsimp only
  have hc := DumpcapExt_case os dumpcapBin tsharkBin args w
  have hr := rewriteArgs_case os args w
  generalize DumpcapExt os dumpcapBin tsharkBin args w = r at hc ⊢
  generalize rewriteArgs os args w = rw at hr hc
  cases hr <;> cases hc <;> simp <;> intro e <;> exact eq_comm

/-- C5: in a call where the fast-path run returned an error and `exec.LookPath`
returned the error `e`, `DumpcapExt` returns `e` and `syscall.Exec` is not called. -/
theorem C5_lookup_error_returned_no_exec {σ : Type} (os : OS σ)
    (dumpcapBin tsharkBin : String) (args : List String) (w : σ)
    (as : List String) (path : String) (e0 e : Error)
    (hrun : Event.Run dumpcapBin as (some e0) ∈ (DumpcapExt os dumpcapBin tsharkBin args w).trace)
    (hlook : Event.LookPath tsharkBin path (some e) ∈
      (DumpcapExt os dumpcapBin tsharkBin args w).trace) :
    (DumpcapExt os dumpcapBin tsharkBin args w).out = Outcome.returned (some e) ∧
    (DumpcapExt os dumpcapBin tsharkBin args w).trace.filter Event.isExec = [] := by
  have hc := DumpcapExt_case os dumpcapBin tsharkBin args w
  have hr := rewriteArgs_case os args w
  generalize DumpcapExt os dumpcapBin tsharkBin args w = r at hc hrun hlook ⊢
  generalize rewriteArgs os args w = rw at hr hc
  cases hr <;> cases hc <;> simp at hlook <;>
    simp [List.filter, Event.isExec, hlook]

/-- C5 at `["-i", "randpkt"]` when dumpcap exits non-zero and tshark is not found. -/
theorem C5_lookup_error_returned_no_exec_witness :
    (DumpcapExt (scripted 64 "" none (some (.other "exit status 1"))
      ("", some (.other "executable file not found in $PATH")) none)
      "dumpcap" "tshark" ["-i", "randpkt"] ()).out =
      Outcome.returned (some (.other "executable file not found in $PATH")) :=
  (C5_lookup_error_returned_no_exec (scripted 64 "" none (some (.other "exit status 1"))
      ("", some (.other "executable file not found in $PATH")) none)
    "dumpcap" "tshark" ["-i", "randpkt"] () ["-i", "randpkt"] ""
    (.other "exit status 1") (.other "executable file not found in $PATH")
    (by decide) (by decide)).1

/-- C6: the fast-path tool is run exactly once, with `dumpcapBin`; if that run
returned an error, `exec.LookPath` is called exactly once, with `tsharkBin`; if it
returned nil, neither `exec.LookPath` nor `syscall.Exec` is called. -/
theorem C6_single_run_single_lookup {σ : Type} (os : OS σ) (dumpcapBin tsharkBin : String)
    (args : List String) (w : σ) :
    let r := DumpcapExt os dumpcapBin tsharkBin args w
    ∃ as res, r.trace.filter Event.isRun = [Event.Run dumpcapBin as res] ∧
      (res ≠ none → ∃ path err,
        r.trace.filter Event.isLookPath = [Event.LookPath tsharkBin path err]) ∧
      (res = none → r.trace.filter Event.isLookPath = [] ∧
        r.trace.filter Event.isExec = []) := by
  dsimp only
  have hc := DumpcapExt_case os dumpcapBin tsharkBin args w
  have hr := rewriteArgs_case os args w
  generalize DumpcapExt os dumpcapBin tsharkBin args w = r at hc ⊢
  generalize rewriteArgs os args w = rw at hr hc
  cases hr <;> cases hc <;> refine ⟨_, _, rfl, ?_, ?_⟩ <;>
    simp [List.filter, Event.isLookPath, Event.isExec]

/-- C7: in a call where the fast-path run on the list `as` returned an error and
`exec.LookPath` returned the path `P` with no error, `syscall.Exec` is called once,
with `P`, the argument vector `P :: as` and `os.Environ()` as read at that moment;
`as` is the list left by the rewrite step; the call ends with the image replaced
exactly when `syscall.Exec` reports no error. -/
theorem C7_fallback_exec_arguments {σ : Type} (os : OS σ)
    (dumpcapBin tsharkBin : String) (args : List String) (w : σ)
    (as : List String) (P : String) (e0 : Error)
    (hrun : Event.Run dumpcapBin as (some e0) ∈ (DumpcapExt os dumpcapBin tsharkBin args w).trace)
    (hlook : Event.LookPath tsharkBin P none ∈
      (DumpcapExt os dumpcapBin tsharkBin args w).trace) :
    let rw := rewriteArgs os args w
    let w1 := (os.Run dumpcapBin rw.args rw.world).2
    let w2 := (os.LookPath tsharkBin w1).2
    let r := DumpcapExt os dumpcapBin tsharkBin args w
    as = rw.args ∧ r.args = as ∧
    ∃ res, r.trace.filter Event.isExec = [Event.Exec P (P :: as) (os.Environ w2) res] ∧
      (r.out = Outcome.replaced ↔ res = none) := by
  dsimp only
  have hc := DumpcapExt_case os dumpcapBin tsharkBin args w
  have hr := rewriteArgs_case os args w
  generalize DumpcapExt os dumpcapBin tsharkBin args w = r at hc hrun hlook ⊢
  generalize rewriteArgs os args w = rw at hr hc
  cases hr <;> cases hc <;> simp at hlook hrun <;>
    simp_all [List.filter, Event.isExec]

/-- C7 at `["-i", "/dev/fd/7"]` when dumpcap exits non-zero and tshark is found. -/
theorem C7_fallback_exec_arguments_witness :
    (DumpcapExt (scripted 64 "" none (some (.other "exit status 1"))
      ("/usr/bin/tshark", none) none) "dumpcap" "tshark" ["-i", "/dev/fd/7"] ()).args =
      ["-i", "-"] :=
  (C7_fallback_exec_arguments (scripted 64 "" none (some (.other "exit status 1"))
      ("/usr/bin/tshark", none) none)
    "dumpcap" "tshark" ["-i", "/dev/fd/7"] () ["-i", "-"] "/usr/bin/tshark"
    (.other "exit status 1") (by decide) (by decide)).2.1

/-- C8: the rewrite step keeps the length of the list and every element at an index
other than 1; the element at index 1 is its original value or `"-"`; at most one
`Dup2` call is made, in the step and in the whole call. -/
theorem C8_rewrite_frame {σ : Type} (os : OS σ) (dumpcapBin tsharkBin : String)
    (args : List String) (w : σ) :
    let rw := rewriteArgs os args w
    rw.args.length = args.length ∧
    (∀ i, i ≠ 1 → rw.args[i]? = args[i]?) ∧
    (rw.args[1]? = args[1]? ∨ rw.args[1]? = some "-") ∧
    (rw.trace.filter Event.isDup2).length ≤ 1 ∧
    ((DumpcapExt os dumpcapBin tsharkBin args w).trace.filter Event.isDup2).length ≤ 1 ∧
    (DumpcapExt os dumpcapBin tsharkBin args w).args = rw.args := by
  dsimp only
  have hc := DumpcapExt_case os dumpcapBin tsharkBin args w
  have hr := rewriteArgs_case os args w
  generalize DumpcapExt os dumpcapBin tsharkBin args w = r at hc ⊢
  generalize rewriteArgs os args w = rw at hr hc
  cases hr with
  | replaced a1 m ds fd w1 h1 ht hm hp hd =>
    obtain ⟨hlt, -⟩ := List.getElem?_eq_some.1 h1
    cases hc <;>
      simp [List.filter, Event.isDup2, List.getElem?_set, hlt] <;>
      (intro i hi hi2; exact absurd hi2.symm hi)
  | _ => cases hc <;> simp [List.filter, Event.isDup2]

/-- C9: on a list whose second element is already `"-"` the pattern does not match,
and the rewrite step makes no `Dup2` call and leaves the list and the state of the
operating system unchanged. -/
theorem C9_rewrite_idempotent {σ : Type} (os : OS σ) (args : List String) (w : σ)
    (h : args[1]? = some "-") :
    fdre.FindStringSubmatch "-" = [] ∧
    (rewriteArgs os args w).args = args ∧
    (rewriteArgs os args w).trace.filter Event.isDup2 = [] ∧
    (rewriteArgs os args w).world = w := by
  have hno : fdre.FindStringSubmatch "-" = [] := by decide
  have hr := rewriteArgs_case os args w
  generalize rewriteArgs os args w = rw at hr
  refine ⟨hno, ?_⟩
  cases hr with
  | dupError a1 m ds fd e w1 h1 ht hm hp hd =>
    rw [h] at h1
    obtain rfl := Option.some.inj h1
    simp [hno] at hm
  | replaced a1 m ds fd w1 h1 ht hm hp hd =>
    rw [h] at h1
    obtain rfl := Option.some.inj h1
    simp [hno] at hm
  | _ => simp [List.filter, Event.isDup2]

/-- C9 at the list left by a successful rewrite of `["-i", "/dev/fd/7"]`. -/
theorem C9_rewrite_idempotent_witness :
    (rewriteArgs (scripted 64 "" none none ("", none) none)
      (rewriteArgs (scripted 64 "" none none ("", none) none) ["-i", "/dev/fd/7"] ()).args
      ()).args = ["-i", "-"] :=
  (C9_rewrite_idempotent (scripted 64 "" none none ("", none) none)
    (rewriteArgs (scripted 64 "" none none ("", none) none) ["-i", "/dev/fd/7"] ()).args ()
    (by decide)).2.1.trans (by decide)

/-- C10: when the digits matched in `args[1]` do not parse as an `int`, no `Dup2`
call is made; in that case, and when they parse but `Dup2` returns an error, the
list is left unchanged and the fast-path tool is run, once, on the unchanged list. -/
theorem C10_rewrite_best_effort {σ : Type} (os : OS σ) (dumpcapBin tsharkBin : String)
    (args : List String) (w : σ) (a1 m ds : String)
    (h1 : args[1]? = some a1) (hm : fdre.FindStringSubmatch a1 = [m, ds])
    (hfail : (∃ e, Atoi os.IntSize ds = .error e) ∨
      (∃ fd e, Atoi os.IntSize ds = .ok fd ∧ (os.Dup2 fd 0 w).1 = some e)) :
    let r := DumpcapExt os dumpcapBin tsharkBin args w
    ((∃ e, Atoi os.IntSize ds = .error e) → r.trace.filter Event.isDup2 = []) ∧
    r.args = args ∧
    (∃ res, r.trace.filter Event.isRun = [Event.Run dumpcapBin args res]) := by
  dsimp only
  have hc := DumpcapExt_case os dumpcapBin tsharkBin args w
  have hr := rewriteArgs_case os args w
  generalize DumpcapExt os dumpcapBin tsharkBin args w = r at hc ⊢
  generalize rewriteArgs os args w = rw at hr hc
  cases hr with
  | dupError a1 m1 ds1 fd e w1 h11 ht hm1 hp hd =>
    rw [h1] at h11
    obtain rfl := Option.some.inj h11
    rw [hm] at hm1
    simp only [List.cons.injEq, and_true] at hm1
    obtain ⟨-, rfl⟩ := hm1
    cases hc <;> simp [List.filter, Event.isRun, hp]
  | replaced a1 m1 ds1 fd w1 h11 ht hm1 hp hd =>
    rw [h1] at h11
    obtain rfl := Option.some.inj h11
    rw [hm] at hm1
    simp only [List.cons.injEq, and_true] at hm1
    obtain ⟨-, rfl⟩ := hm1
    exfalso
    rcases hfail with ⟨e, he⟩ | ⟨fd2, e, hp2, hd2⟩
    · simp [hp] at he
    · rw [hp] at hp2
      obtain rfl := Except.ok.inj hp2
      simp [hd] at hd2
  | _ => cases hc <;> simp [List.filter, Event.isRun, Event.isDup2]

/-- C10 at `/dev/fd/99999999999999999999`, out of range for a 64-bit `int`, and at
`/dev/fd/7` when `Dup2` fails with `EBADF`. -/
theorem C10_rewrite_best_effort_witness :
    (DumpcapExt (scripted 64 "" none none ("", none) none) "dumpcap" "tshark"
      ["-i", "/dev/fd/99999999999999999999"] ()).args =
      ["-i", "/dev/fd/99999999999999999999"] ∧
    (DumpcapExt (scripted 64 "" (some (.other "bad file descriptor")) none ("", none) none)
      "dumpcap" "tshark" ["-i", "/dev/fd/7"] ()).args = ["-i", "/dev/fd/7"] :=
  ⟨(C10_rewrite_best_effort (scripted 64 "" none none ("", none) none) "dumpcap" "tshark"
      ["-i", "/dev/fd/99999999999999999999"] () "/dev/fd/99999999999999999999"
      "/dev/fd/99999999999999999999" "99999999999999999999" rfl (by decide)
      (Or.inl ⟨.ErrRange "Atoi" "99999999999999999999", rfl⟩)).2.1,
   (C10_rewrite_best_effort
      (scripted 64 "" (some (.other "bad file descriptor")) none ("", none) none)
      "dumpcap" "tshark" ["-i", "/dev/fd/7"] () "/dev/fd/7" "/dev/fd/7" "7" rfl (by decide)
      (Or.inr ⟨7, .other "bad file descriptor", rfl, rfl⟩)).2.1⟩

end Termshark


